import Mathlib

/-!
Shallow embedding of the `vinhtc27/http` server (`src/main.rs`) and proofs
about its specification claims.

Modelling conventions:
* Bytes on the wire are modelled as `Char` values (one `Char` per byte; all
  inputs of interest are ASCII).  A socket byte stream is a `List Char`, and
  request/response bodies (`Vec<u8>` in the source) are `List Char`.
* `unwrap`/index panics in the source are modelled as `Except.error` values of
  the `HErr` type; the error labels follow the spec's error taxonomy
  (MalformedRequestLine, InvalidMethod, InvalidContentLength, MissingHeader,
  a transport error for a short body read, and an index panic for the
  `parts[2]` accesses in the router).
* `Rust HashMap<K, V>` is modelled as an association list with
  replace-or-append insertion (one value per key, duplicate inserts
  overwrite); iteration order on the wire is unspecified in the spec, and the
  model serializes in list order.
* The gzip encoder (`flate2`, an external crate) is a parameter
  `gz : List Char → List Char` of the handler.
* The filesystem (an external collaborator, treated by the spec as an
  abstract read/write byte-store keyed by filename) is modelled as `FStore`:
  an association list of files plus a list of paths on which a write fails
  together with the failure's error text.
-/

/-- Boolean prefix test on lists of characters (models Rust `str::starts_with`). -/
def isPrefixB : List Char → List Char → Bool
  | [], _ => true
  | _ :: _, [] => false
  | a :: as, b :: bs => if a = b then isPrefixB as bs else false

/-- `s.starts_with pre` on strings, via the underlying character lists. -/
def strStartsWith (s pre : String) : Bool :=
  isPrefixB pre.data s.data

/-- Rust `char::is_whitespace`, restricted to the ASCII whitespace that the
protocol uses. -/
def isWS (c : Char) : Bool :=
  c.isWhitespace

/-- Rust `str::trim`: drop leading and trailing whitespace. -/
def trimChars (l : List Char) : List Char :=
  ((l.dropWhile isWS).reverse.dropWhile isWS).reverse

/-- Rust `str::split_whitespace`: whitespace-separated tokens, empties dropped.
`acc` holds the current token reversed. -/
def splitWSAux : List Char → List Char → List (List Char)
  | [], acc => if acc = [] then [] else [acc.reverse]
  | c :: cs, acc =>
    if isWS c then
      if acc = [] then splitWSAux cs [] else acc.reverse :: splitWSAux cs []
    else splitWSAux cs (c :: acc)

/-- Rust `str::split_whitespace` (the request-line tokenizer). -/
def splitWS (l : List Char) : List (List Char) :=
  splitWSAux l []

/-- Rust `str::split('/')`: split at every `/`, keeping empty pieces. -/
def splitChar (c : Char) : List Char → List (List Char)
  | [] => [[]]
  | x :: xs =>
    if x = c then [] :: splitChar c xs
    else
      match splitChar c xs with
      | [] => [[x]]
      | y :: ys => (x :: y) :: ys

/-- Split at the first occurrence of `c` (Rust `splitn(2, c)`): `none` when `c`
does not occur. -/
def splitFirst (c : Char) : List Char → Option (List Char × List Char)
  | [] => none
  | x :: xs =>
    if x = c then some ([], xs)
    else (splitFirst c xs).map (fun p => (x :: p.1, p.2))

/-- Rust `str::contains(", ")`. -/
def containsCommaSpace : List Char → Bool
  | [] => false
  | [_] => false
  | c :: d :: cs => (c = ',' && d = ' ') || containsCommaSpace (d :: cs)

/-- Rust `str::split(", ")`: pieces between non-overlapping occurrences of
`", "`, scanning left to right.  `acc` holds the current piece reversed. -/
def splitCommaSpaceAux : List Char → List Char → List (List Char)
  | [], acc => [acc.reverse]
  | [c], acc => [(c :: acc).reverse]
  | c :: d :: cs, acc =>
    if c = ',' ∧ d = ' ' then acc.reverse :: splitCommaSpaceAux cs []
    else splitCommaSpaceAux (d :: cs) (c :: acc)

/-- Rust `str::split(", ")`. -/
def splitCommaSpace (l : List Char) : List (List Char) :=
  splitCommaSpaceAux l []

/-- Rust `usize::from_str` on base-10 digits: at least one digit required. -/
def digitsToNat? (l : List Char) : Option Nat :=
  if l = [] then none
  else if l.all Char.isDigit then
    some (l.foldl (fun n c => 10 * n + (c.toNat - 48)) 0)
  else none

/-- Rust `str::parse::<usize>()`: an optional leading `+`, then base-10
digits, bounded by the 64-bit machine word. -/
def parseUsize (s : String) : Option Nat :=
  let t := if isPrefixB ['+'] s.data then s.data.drop 1 else s.data
  match digitsToNat? t with
  | some n => if n < 2 ^ 64 then some n else none
  | none => none

/-- Association-list insertion with overwrite (Rust `HashMap::insert`:
one value per key, duplicate inserts overwrite). -/
def insertA {α β : Type} [DecidableEq α] : List (α × β) → α → β → List (α × β)
  | [], k, v => [(k, v)]
  | (k', v') :: l, k, v =>
    if k' = k then (k, v) :: l else (k', v') :: insertA l k v

/-- Association-list lookup (Rust `HashMap::get`). -/
def lookupA {α β : Type} [DecidableEq α] : List (α × β) → α → Option β
  | [], _ => none
  | (k', v') :: l, k => if k' = k then some v' else lookupA l k

/-- The HTTP method enumeration (`enum Method`). -/
inductive Method where
  | Get
  | Head
  | Post
  | Put
  | Delete
  | Connect
  | Options
  | Trace
  | Patch
  deriving DecidableEq, Repr

/-- `impl FromStr for Method`: the nine literal method tokens; anything else
fails. -/
def Method.fromString (s : String) : Option Method :=
  match s with
  | "GET" => some .Get
  | "HEAD" => some .Head
  | "POST" => some .Post
  | "PUT" => some .Put
  | "DELETE" => some .Delete
  | "CONNECT" => some .Connect
  | "OPTIONS" => some .Options
  | "TRACE" => some .Trace
  | "PATCH" => some .Patch
  | _ => none

/-- The header-name type (`enum HeaderType`): well-known names plus a
`Custom` fallback. -/
inductive HeaderType where
  | Accept
  | AcceptCharset
  | AcceptEncoding
  | AcceptLanguage
  | AccessControlRequestMethod
  | AccessControlRequestHeaders
  | Authorization
  | CacheControl
  | Connection
  | ContentDisposition
  | ContentEncoding
  | ContentLanguage
  | ContentLength
  | ContentType
  | Cookie
  | Date
  | Expect
  | Forwarded
  | From
  | Host
  | IfMatch
  | IfModifiedSince
  | IfNoneMatch
  | IfRange
  | IfUnmodifiedSince
  | MaxForwards
  | Origin
  | Pragma
  | ProxyAuthenticate
  | ProxyAuthorization
  | Range
  | Referer
  | TE
  | Trailer
  | TransferEncoding
  | UserAgent
  | Upgrade
  | Via
  | Warning
  | Custom (name : String)
  deriving DecidableEq, Repr

/-- `impl Display for HeaderType`: canonical hyphenated wire form. -/
def HeaderType.display : HeaderType → String
  | .Accept => "Accept"
  | .AcceptCharset => "Accept-Charset"
  | .AcceptEncoding => "Accept-Encoding"
  | .AcceptLanguage => "Accept-Language"
  | .AccessControlRequestMethod => "Access-Control-Request-Method"
  | .AccessControlRequestHeaders => "Access-Control-Request-Headers"
  | .Authorization => "Authorization"
  | .CacheControl => "Cache-Control"
  | .Connection => "Connection"
  | .ContentDisposition => "Content-Disposition"
  | .ContentEncoding => "Content-Encoding"
  | .ContentLanguage => "Content-Language"
  | .ContentLength => "Content-Length"
  | .ContentType => "Content-Type"
  | .Cookie => "Cookie"
  | .Date => "Date"
  | .Expect => "Expect"
  | .Forwarded => "Forwarded"
  | .From => "From"
  | .Host => "Host"
  | .IfMatch => "If-Match"
  | .IfModifiedSince => "If-Modified-Since"
  | .IfNoneMatch => "If-None-Match"
  | .IfRange => "If-Range"
  | .IfUnmodifiedSince => "If-Unmodified-Since"
  | .MaxForwards => "Max-Forwards"
  | .Origin => "Origin"
  | .Pragma => "Pragma"
  | .ProxyAuthenticate => "Proxy-Authenticate"
  | .ProxyAuthorization => "Proxy-Authorization"
  | .Range => "Range"
  | .Referer => "Referer"
  | .TE => "TE"
  | .Trailer => "Trailer"
  | .TransferEncoding => "Transfer-Encoding"
  | .UserAgent => "User-Agent"
  | .Upgrade => "Upgrade"
  | .Via => "Via"
  | .Warning => "Warning"
  | .Custom name => name

/-- `impl FromStr for HeaderType`: the 39 well-known names; any other name
becomes `Custom` (never fails). -/
def HeaderType.fromString (s : String) : HeaderType :=
  match s with
  | "Accept" => .Accept
  | "Accept-Charset" => .AcceptCharset
  | "Accept-Encoding" => .AcceptEncoding
  | "Accept-Language" => .AcceptLanguage
  | "Access-Control-Request-Method" => .AccessControlRequestMethod
  | "Access-Control-Request-Headers" => .AccessControlRequestHeaders
  | "Authorization" => .Authorization
  | "Cache-Control" => .CacheControl
  | "Connection" => .Connection
  | "Content-Disposition" => .ContentDisposition
  | "Content-Encoding" => .ContentEncoding
  | "Content-Language" => .ContentLanguage
  | "Content-Length" => .ContentLength
  | "Content-Type" => .ContentType
  | "Cookie" => .Cookie
  | "Date" => .Date
  | "Expect" => .Expect
  | "Forwarded" => .Forwarded
  | "From" => .From
  | "Host" => .Host
  | "If-Match" => .IfMatch
  | "If-Modified-Since" => .IfModifiedSince
  | "If-None-Match" => .IfNoneMatch
  | "If-Range" => .IfRange
  | "If-Unmodified-Since" => .IfUnmodifiedSince
  | "Max-Forwards" => .MaxForwards
  | "Origin" => .Origin
  | "Pragma" => .Pragma
  | "Proxy-Authenticate" => .ProxyAuthenticate
  | "Proxy-Authorization" => .ProxyAuthorization
  | "Range" => .Range
  | "Referer" => .Referer
  | "TE" => .TE
  | "Trailer" => .Trailer
  | "Transfer-Encoding" => .TransferEncoding
  | "User-Agent" => .UserAgent
  | "Upgrade" => .Upgrade
  | "Via" => .Via
  | "Warning" => .Warning
  | other => .Custom other

/-- The 39 well-known header names recognized by `HeaderType.fromString`. -/
def knownHeaderNames : List String :=
  ["Accept", "Accept-Charset", "Accept-Encoding", "Accept-Language",
   "Access-Control-Request-Method", "Access-Control-Request-Headers",
   "Authorization", "Cache-Control", "Connection", "Content-Disposition",
   "Content-Encoding", "Content-Language", "Content-Length", "Content-Type",
   "Cookie", "Date", "Expect", "Forwarded", "From", "Host", "If-Match",
   "If-Modified-Since", "If-None-Match", "If-Range", "If-Unmodified-Since",
   "Max-Forwards", "Origin", "Pragma", "Proxy-Authenticate",
   "Proxy-Authorization", "Range", "Referer", "TE", "Trailer",
   "Transfer-Encoding", "User-Agent", "Upgrade", "Via", "Warning"]

/-- The content-encoding enumeration (`enum EncodingType`). -/
inductive EncodingType where
  | Gzip
  | Compress
  | Deflate
  | Brotli
  | Zstd
  deriving DecidableEq, Repr

/-- `impl Display for EncodingType`: lowercase canonical serialization. -/
def EncodingType.toWire : EncodingType → String
  | .Gzip => "gzip"
  | .Compress => "compress"
  | .Deflate => "deflate"
  | .Brotli => "br"
  | .Zstd => "zstd"

/-- `impl FromStr for EncodingType`: trim, lowercase, then match the five
known names; unknown tokens fail. -/
def EncodingType.fromString (s : String) : Option EncodingType :=
  let t := (trimChars s.data).map Char.toLower
  if t = "gzip".data then some .Gzip
  else if t = "compress".data then some .Compress
  else if t = "deflate".data then some .Deflate
  else if t = "br".data then some .Brotli
  else if t = "zstd".data then some .Zstd
  else none

/-- The HTTP status-code enumeration (`enum StatusCode`). -/
inductive StatusCode where
  | Continue
  | SwitchingProtocols
  | Processing
  | Ok
  | Created
  | Accepted
  | NonAuthoritativeInfo
  | NoContent
  | ResetContent
  | PartialContent
  | MultiStatus
  | AlreadyReported
  | ImUsed
  | MultipleChoices
  | MovedPermanently
  | Found
  | SeeOther
  | NotModified
  | UseProxy
  | TemporaryRedirect
  | PermanentRedirect
  | BadRequest
  | Unauthorized
  | PaymentRequired
  | Forbidden
  | NotFound
  | MethodNotAllowed
  | NotAcceptable
  | ProxyAuthRequired
  | RequestTimeout
  | Conflict
  | Gone
  | LengthRequired
  | PreconditionFailed
  | PayloadTooLarge
  | UriTooLong
  | UnsupportedMediaType
  | RangeNotSatisfiable
  | ExpectationFailed
  | ImATeapot
  | MisdirectedRequest
  | UnprocessableEntity
  | Locked
  | FailedDependency
  | TooEarly
  | UpgradeRequired
  | PreconditionRequired
  | TooManyRequests
  | RequestHeaderFieldsTooLarge
  | UnavailableForLegalReasons
  | InternalServerError
  | NotImplemented
  | BadGateway
  | ServiceUnavailable
  | GatewayTimeout
  | HttpVersionNotSupported
  | VariantAlsoNegotiates
  | InsufficientStorage
  | LoopDetected
  | NotExtended
  | NetworkAuthenticationRequired
  deriving DecidableEq, Repr

/-- `impl Display for StatusCode`: `"<code> <reason phrase>"`. -/
def StatusCode.display : StatusCode → String
  | .Continue => "100 Continue"
  | .SwitchingProtocols => "101 Switching Protocols"
  | .Processing => "102 Processing"
  | .Ok => "200 OK"
  | .Created => "201 Created"
  | .Accepted => "202 Accepted"
  | .NonAuthoritativeInfo => "203 Non-Authoritative Information"
  | .NoContent => "204 No Content"
  | .ResetContent => "205 Reset Content"
  | .PartialContent => "206 Partial Content"
  | .MultiStatus => "207 Multi-Status"
  | .AlreadyReported => "208 Already Reported"
  | .ImUsed => "226 IM Used"
  | .MultipleChoices => "300 Multiple Choices"
  | .MovedPermanently => "301 Moved Permanently"
  | .Found => "302 Found"
  | .SeeOther => "303 See Other"
  | .NotModified => "304 Not Modified"
  | .UseProxy => "305 Use Proxy"
  | .TemporaryRedirect => "307 Temporary Redirect"
  | .PermanentRedirect => "308 Permanent Redirect"
  | .BadRequest => "400 Bad Request"
  | .Unauthorized => "401 Unauthorized"
  | .PaymentRequired => "402 Payment Required"
  | .Forbidden => "403 Forbidden"
  | .NotFound => "404 Not Found"
  | .MethodNotAllowed => "405 Method Not Allowed"
  | .NotAcceptable => "406 Not Acceptable"
  | .ProxyAuthRequired => "407 Proxy Authentication Required"
  | .RequestTimeout => "408 Request Timeout"
  | .Conflict => "409 Conflict"
  | .Gone => "410 Gone"
  | .LengthRequired => "411 Length Required"
  | .PreconditionFailed => "412 Precondition Failed"
  | .PayloadTooLarge => "413 Payload Too Large"
  | .UriTooLong => "414 URI Too Long"
  | .UnsupportedMediaType => "415 Unsupported Media Type"
  | .RangeNotSatisfiable => "416 Range Not Satisfiable"
  | .ExpectationFailed => "417 Expectation Failed"
  | .ImATeapot => "418 I'm a teapot"
  | .MisdirectedRequest => "421 Misdirected Request"
  | .UnprocessableEntity => "422 Unprocessable Entity"
  | .Locked => "423 Locked"
  | .FailedDependency => "424 Failed Dependency"
  | .TooEarly => "425 Too Early"
  | .UpgradeRequired => "426 Upgrade Required"
  | .PreconditionRequired => "428 Precondition Required"
  | .TooManyRequests => "429 Too Many Requests"
  | .RequestHeaderFieldsTooLarge => "431 Request Header Fields Too Large"
  | .UnavailableForLegalReasons => "451 Unavailable For Legal Reasons"
  | .InternalServerError => "500 Internal Server Error"
  | .NotImplemented => "501 Not Implemented"
  | .BadGateway => "502 Bad Gateway"
  | .ServiceUnavailable => "503 Service Unavailable"
  | .GatewayTimeout => "504 Gateway Timeout"
  | .HttpVersionNotSupported => "505 HTTP Version Not Supported"
  | .VariantAlsoNegotiates => "506 Variant Also Negotiates"
  | .InsufficientStorage => "507 Insufficient Storage"
  | .LoopDetected => "508 Loop Detected"
  | .NotExtended => "510 Not Extended"
  | .NetworkAuthenticationRequired => "511 Network Authentication Required"

/-- The header mapping of a request or response. -/
abbrev Headers : Type := List (HeaderType × String)

/-- The line terminator constant (`const CRLF`). -/
def CRLF : String := "\r\n"

/-- Failure modes of a connection, labelled after the spec's error taxonomy.
In the source all of these are `unwrap`/indexing panics that abort the
connection's thread. -/
inductive HErr where
  | malformedRequestLine
  | invalidMethod
  | invalidContentLength
  | transportError
  | missingHeader
  | indexOutOfBounds
  deriving DecidableEq, Repr

/-- `HeaderType::parse`: split a header line on the first `:`, trim the key
and match it against the known names, trim the value; a line with no `:`
yields `none`. -/
def HeaderType.parse (line : List Char) : Option (HeaderType × String) :=
  match splitFirst ':' line with
  | none => none
  | some (key, value) =>
    some (HeaderType.fromString (String.mk (trimChars key)), String.mk (trimChars value))

/-- `BufRead::read_line`: take characters up to and including the first
newline; at end of stream return whatever remains. -/
def readLine : List Char → List Char × List Char
  | [] => ([], [])
  | c :: cs =>
    if c = '\n' then ([c], cs)
    else
      let pr := readLine cs
      (c :: pr.1, pr.2)

/-- The stream suffix `readLine` leaves behind, together with the line read,
reassembles the stream. -/
theorem readLine_append (s : List Char) : (readLine s).1 ++ (readLine s).2 = s := by
  induction s with
  | nil => rfl
  | cons c cs ih =>
    by_cases h : c = '\n' <;> simp [readLine, h, ih]

/-- `readLine` reads a nonempty line from a nonempty stream. -/
theorem readLine_fst_eq_nil (s : List Char) (h : (readLine s).1 = []) : s = [] := by
  cases s with
  | nil => rfl
  | cons c cs =>
    by_cases hc : c = '\n' <;> simp [readLine, hc] at h

/-- On a nonempty stream, `readLine` strictly shrinks the stream. -/
theorem readLine_snd_lt (s : List Char) (h : s ≠ []) :
    (readLine s).2.length < s.length := by
  have hfst : (readLine s).1 ≠ [] := fun hn => h (readLine_fst_eq_nil s hn)
  have := readLine_append s
  have hlen : (readLine s).1.length + (readLine s).2.length = s.length := by
    rw [← List.length_append, this]
  have hpos : 0 < (readLine s).1.length := List.length_pos.mpr hfst
  omega

/-- The header-block loop of `HttpRequest::from` (lines 399-413): read lines
until a blank line, inserting each parsed header; lines that fail the `:`
split are skipped.  The branch for a line equal to `CRLF` is in the source
but unreachable, because a `"\r\n"` line trims to empty and breaks first. -/
def parseHeaders (stream : List Char) (acc : Headers) : Headers × List Char :=
  if h : trimChars (readLine stream).1 = [] then (acc, (readLine stream).2)
  else if (readLine stream).1 = CRLF.data then (acc, (readLine (readLine stream).2).2)
  else
    match HeaderType.parse (readLine stream).1 with
    | some kv => parseHeaders (readLine stream).2 (insertA acc kv.1 kv.2)
    | none => parseHeaders (readLine stream).2 acc
termination_by stream.length
decreasing_by
  all_goals exact readLine_snd_lt stream (fun hs => h (by subst hs; rfl))

/-- The body-reading step of `HttpRequest::from` (lines 415-420): with a
`Content-Length` header, parse it and read exactly that many bytes
(`read_exact`); parse failure is the `unwrap` panic on line 417, and a
stream that ends early is `read_exact`'s `UnexpectedEof`.  Without the
header the body is left empty. -/
def readBody (headers : Headers) (s : List Char) : Except HErr (List Char × List Char) :=
  match lookupA headers HeaderType.ContentLength with
  | none => .ok ([], s)
  | some clStr =>
    match parseUsize clStr with
    | none => .error .invalidContentLength
    | some n =>
      if n ≤ s.length then .ok (s.take n, s.drop n) else .error .transportError

/-- The parsed request (`struct HttpRequest`). -/
structure HttpRequest where
  method : Method
  path : String
  version : String
  headers : Headers
  body : List Char
  deriving DecidableEq, Repr

/-- `impl From<&TcpStream> for HttpRequest` (lines 388-430): read the request
line, take tokens 0..2 as method, path and version (each missing token is the
corresponding indexing panic; a method token that is not a method is the
`unwrap` panic on line 395), then the header block, then the
length-delimited body.  Returns the request and the unconsumed stream. -/
def HttpRequest.from (stream : List Char) : Except HErr (HttpRequest × List Char) :=
  let requestLine := (readLine stream).1
  let s1 := (readLine stream).2
  let parts := splitWS requestLine
  match parts[0]? with
  | none => .error .malformedRequestLine
  | some p0 =>
    match Method.fromString (String.mk p0) with
    | none => .error .invalidMethod
    | some method =>
      match parts[1]? with
      | none => .error .malformedRequestLine
      | some p1 =>
        match parts[2]? with
        | none => .error .malformedRequestLine
        | some p2 =>
          let hs := parseHeaders s1 []
          match readBody hs.1 hs.2 with
          | .error e => .error e
          | .ok bd =>
            .ok ({ method := method, path := String.mk p1, version := String.mk p2,
                   headers := hs.1, body := bd.1 }, bd.2)

/-- The outbound response (`struct HttpResponse`). -/
structure HttpResponse where
  version : String
  status_code : StatusCode
  headers : Headers
  body : List Char
  deriving DecidableEq, Repr

/-- The header lines written by `HttpResponse::write_to`, one
`<name>: <value>` + CRLF per entry, in map-iteration order. -/
def headerLines : Headers → List Char
  | [] => []
  | (k, v) :: hs => (k.display ++ ": " ++ v ++ CRLF).data ++ headerLines hs

/-- `HttpResponse::write_to` (lines 441-453): status line, header lines, a
blank line, then the raw body bytes. -/
def HttpResponse.writeTo (r : HttpResponse) : List Char :=
  (r.version ++ " " ++ r.status_code.display ++ CRLF).data
    ++ headerLines r.headers ++ CRLF.data ++ r.body

/-- The candidate tokens of an `Accept-Encoding` value (lines 466-470): split
on `", "` when the delimiter occurs, otherwise the whole value is the single
candidate. -/
def encCandidates (values : String) : List String :=
  if containsCommaSpace values.data then (splitCommaSpace values.data).map String.mk
  else [values]

/-- One step of the negotiation loop (lines 471-485): a candidate recognized
as an encoding is appended to the accumulated `Content-Encoding` value
(comma-space–joined), an unrecognized candidate is dropped. -/
def negStep (hs : Headers) (value : String) : Headers :=
  match EncodingType.fromString value with
  | none => hs
  | some encodingType =>
    match lookupA hs HeaderType.ContentEncoding with
    | some encodingTypes =>
      insertA hs HeaderType.ContentEncoding (encodingTypes ++ ", " ++ encodingType.toWire)
    | none => insertA hs HeaderType.ContentEncoding encodingType.toWire

/-- The Content-Encoding negotiator (lines 465-486): with no `Accept-Encoding`
request header the response headers are untouched; otherwise fold the
candidates through `negStep`. -/
def negotiate (reqHeaders : Headers) (respHeaders : Headers) : Headers :=
  match lookupA reqHeaders HeaderType.AcceptEncoding with
  | none => respHeaders
  | some values => (encCandidates values).foldl negStep respHeaders

/-- The canonical names of the recognized candidates of an `Accept-Encoding`
value, in the order encountered. -/
def recognizedEncodings (values : String) : List String :=
  (encCandidates values).filterMap
    (fun c => (EncodingType.fromString c).map EncodingType.toWire)

/-- The external file-store collaborator, an abstract byte-store keyed by
path: stored files, plus the paths on which a write fails together with the
error text of the failure (`err.to_string()` is opaque to the core). -/
structure FStore where
  files : List (List Char × List Char)
  failWrites : List (List Char × String)
  deriving DecidableEq, Repr

/-- `std::fs::read`, abstracted: the stored bytes, or failure. -/
def readStore (st : FStore) (key : List Char) : Option (List Char) :=
  lookupA st.files key

/-- `std::fs::write`, abstracted: replace the stored bytes under `key`. -/
def writeStore (st : FStore) (key : List Char) (v : List Char) : FStore :=
  { st with files := insertA st.files key v }

/-- `connection_handler` (lines 456-552) after the request has been parsed:
build the initial 200 response, run encoding negotiation, dispatch on the
path prefix, then set `Content-Length` from the final body and return the
response to be written to the wire.  `gz` is the gzip encoder (external
`flate2` crate) and `dir` the serving directory. -/
def handleRequest (gz : List Char → List Char) (dir : String) (request : HttpRequest)
    (store : FStore) : Except HErr (HttpResponse × FStore) :=
  let resp0 : HttpResponse :=
    { version := request.version, status_code := StatusCode.Ok, headers := [], body := [] }
  let resp1 : HttpResponse := { resp0 with headers := negotiate request.headers resp0.headers }
  let finish : HttpResponse → FStore → Except HErr (HttpResponse × FStore) := fun r st =>
    .ok ({ r with
           headers := insertA r.headers HeaderType.ContentLength (Nat.repr r.body.length) },
         st)
  if strStartsWith request.path "/echo" then
    match (splitChar '/' request.path.data)[2]? with
    | none => .error .indexOutOfBounds
    | some str =>
      let hs := insertA resp1.headers HeaderType.ContentType "text/plain"
      let body :=
        match lookupA hs HeaderType.ContentEncoding with
        | some v => if v = "gzip" then gz str else str
        | none => str
      finish { resp1 with headers := hs, body := body } store
  else if strStartsWith request.path "/files" then
    match (splitChar '/' request.path.data)[2]? with
    | none => .error .indexOutOfBounds
    | some fileName =>
      let filePath := dir.data ++ '/' :: fileName
      match request.method with
      | Method.Get =>
        match readStore store filePath with
        | some file =>
          finish { resp1 with
                   headers := insertA resp1.headers HeaderType.ContentType
                     "application/octet-stream",
                   body := file } store
        | none => finish { resp1 with status_code := StatusCode.NotFound } store
      | Method.Post =>
        match lookupA store.failWrites filePath with
        | none =>
          finish { resp1 with status_code := StatusCode.Created }
            (writeStore store filePath request.body)
        | some err =>
          finish { resp1 with
                   status_code := StatusCode.InternalServerError,
                   body := err.data } store
      | _ => finish { resp1 with status_code := StatusCode.MethodNotAllowed } store
  else if request.path = "/user-agent" then
    match lookupA request.headers HeaderType.UserAgent with
    | none => .error .missingHeader
    | some userAgent =>
      finish { resp1 with
               headers := insertA resp1.headers HeaderType.ContentType "text/plain",
               body := userAgent.data } store
  else if request.path = "/" then finish resp1 store
  else finish { resp1 with status_code := StatusCode.NotFound } store

/-- The full per-connection sequence: parse the request from the stream, then
handle it (`connection_handler`, lines 456-552). -/
def connectionHandler (gz : List Char → List Char) (dir : String) (stream : List Char)
    (store : FStore) : Except HErr (HttpResponse × FStore) :=
  match HttpRequest.from stream with
  | .error e => .error e
  | .ok pr => handleRequest gz dir pr.1 store

/-- Looking up the key just inserted yields the inserted value. -/
theorem lookupA_insertA_self {α β : Type} [DecidableEq α] (l : List (α × β)) (k : α) (v : β) :
    lookupA (insertA l k v) k = some v := by
  induction l with
  | nil => simp [insertA, lookupA]
  | cons kv l ih =>
    by_cases h : kv.1 = k <;> simp [insertA, lookupA, h, ih]

/-- Inserting under one key does not change lookups under another. -/
theorem lookupA_insertA_ne {α β : Type} [DecidableEq α] (l : List (α × β)) (k k' : α) (v : β)
    (h : k ≠ k') : lookupA (insertA l k v) k' = lookupA l k' := by
  induction l with
  | nil => simp [insertA, lookupA, h]
  | cons kv l ih =>
    by_cases hk : kv.1 = k
    · simp [insertA, lookupA, hk, h, ih]
    · by_cases hk' : kv.1 = k' <;> simp [insertA, lookupA, hk, hk', Ne.symm h, ih]

/-- The pair just inserted is a member of the resulting list. -/
theorem mem_insertA {α β : Type} [DecidableEq α] (l : List (α × β)) (k : α) (v : β) :
    (k, v) ∈ insertA l k v := by
  induction l with
  | nil => simp [insertA]
  | cons kv l ih =>
    by_cases h : kv.1 = k <;> simp [insertA, h, ih]

/-- A successful lookup names a member of the list. -/
theorem lookupA_mem {α β : Type} [DecidableEq α] (l : List (α × β)) (k : α) (v : β)
    (h : lookupA l k = some v) : (k, v) ∈ l := by
  induction l with
  | nil => simp [lookupA] at h
  | cons kv l ih =>
    by_cases hk : kv.1 = k
    · simp [lookupA, hk] at h
      cases kv
      simp_all
    · simp [lookupA, hk] at h
      exact List.mem_cons_of_mem _ (ih h)

/-- `splitChar` always yields at least one piece. -/
theorem splitChar_ne_nil (c : Char) (l : List Char) : splitChar c l ≠ [] := by
  cases l with
  | nil => simp [splitChar]
  | cons x xs =>
    by_cases h : x = c
    · simp [splitChar, h]
    · simp only [splitChar, h, if_false]
      cases hs : splitChar c xs <;> simp

/-- A list is extended by `isPrefixB` on the left of an append. -/
theorem isPrefixB_append (p t : List Char) : isPrefixB p (p ++ t) = true := by
  induction p with
  | nil => rfl
  | cons a as ih => simp [isPrefixB, ih]

/-- `readLine` on a line (with no interior newline) followed by a newline and
the rest of the stream reads exactly that line. -/
theorem readLine_line (l rest : List Char) (h : '\n' ∉ l) :
    readLine (l ++ '\n' :: rest) = (l ++ ['\n'], rest) := by
  induction l with
  | nil => simp [readLine]
  | cons c cs ih =>
    have hc : c ≠ '\n' := fun hcn => h (by simp [hcn])
    have hcs : '\n' ∉ cs := fun hmem => h (List.mem_cons_of_mem _ hmem)
    simp [readLine, hc, ih hcs]

/-- Dropping a whitespace prefix distributes over append. -/
theorem dropWhile_ws_append (l m : List Char) :
    (l ++ m).dropWhile isWS =
      if (l.dropWhile isWS).isEmpty then m.dropWhile isWS else l.dropWhile isWS ++ m := by
  induction l with
  | nil => simp
  | cons a as ih =>
    by_cases h : isWS a <;> simp [List.dropWhile_cons, h, ih]

/-- Trailing-newline lines trim like the bare line. -/
theorem trimChars_append_newline (l : List Char) :
    trimChars (l ++ ['\n']) = trimChars l := by
  unfold trimChars
  rw [dropWhile_ws_append]
  by_cases h : (l.dropWhile isWS).isEmpty
  · have hnl : isWS '\n' = true := by decide
    simp [h, List.dropWhile_cons, hnl, List.isEmpty_iff.mp h]
  · have hnl : isWS '\n' = true := by decide
    simp only [h, if_false, List.reverse_append]
    simp [List.dropWhile_cons, hnl]

/-- A character missing from the input makes `splitFirst` fail. -/
theorem splitFirst_not_mem (c : Char) (l : List Char) (h : c ∉ l) :
    splitFirst c l = none := by
  induction l with
  | nil => rfl
  | cons x xs ih =>
    have hx : x ≠ c := fun he => h (by simp [he])
    have hxs : c ∉ xs := fun hm => h (List.mem_cons_of_mem _ hm)
    simp [splitFirst, hx, Ne.symm hx, ih hxs]

/-- `splitFirst` splits at the first occurrence of the character. -/
theorem splitFirst_first (c : Char) (k v : List Char) (h : c ∉ k) :
    splitFirst c (k ++ c :: v) = some (k, v) := by
  induction k with
  | nil => simp [splitFirst]
  | cons x xs ih =>
    have hx : x ≠ c := fun he => h (by simp [he])
    have hxs : c ∉ xs := fun hm => h (List.mem_cons_of_mem _ hm)
    simp [splitFirst, hx, Ne.symm hx, ih hxs]

/-- The accumulated `Content-Encoding` value after folding the candidates:
starting from an accumulator value `ex`, the recognized names are appended
one at a time with `", "`; starting from nothing, the first recognized name
starts the value. -/
theorem foldl_negStep_lookup (vals : List String) (hs : Headers) :
    lookupA (vals.foldl negStep hs) HeaderType.ContentEncoding =
      match lookupA hs HeaderType.ContentEncoding,
        vals.filterMap (fun c => (EncodingType.fromString c).map EncodingType.toWire) with
      | none, [] => none
      | none, n :: ns => some (ns.foldl (fun a b => a ++ ", " ++ b) n)
      | some ex, ns => some (ns.foldl (fun a b => a ++ ", " ++ b) ex) := by
  induction vals generalizing hs with
  | nil =>
    cases h : lookupA hs HeaderType.ContentEncoding <;> simp [h]
  | cons v vals ih =>
    cases hv : EncodingType.fromString v with
    | none =>
      simp only [List.foldl_cons, List.filterMap_cons, hv, negStep, Option.map_none]
      exact ih hs
    | some et =>
      cases hce : lookupA hs HeaderType.ContentEncoding with
      | none =>
        simp only [List.foldl_cons, List.filterMap_cons, hv, negStep, hce, Option.map_some]
        rw [ih, lookupA_insertA_self]
        rfl
      | some ex =>
        simp only [List.foldl_cons, List.filterMap_cons, hv, negStep, hce, Option.map_some]
        rw [ih, lookupA_insertA_self]
        rfl

/-- When no candidate is recognized, the negotiation fold leaves the response
headers exactly as they were. -/
theorem foldl_negStep_id (vals : List String) (hs : Headers)
    (h : vals.filterMap (fun c => (EncodingType.fromString c).map EncodingType.toWire) = []) :
    vals.foldl negStep hs = hs := by
  induction vals generalizing hs with
  | nil => rfl
  | cons v vals ih =>
    cases hv : EncodingType.fromString v with
    | none =>
      simp only [List.filterMap_cons, hv, Option.map_none] at h
      simp only [List.foldl_cons, negStep, hv]
      exact ih hs h
    | some et => simp [List.filterMap_cons, hv] at h

/-- Each member of the header map appears as a header line in the serialized
header block. -/
theorem headerLines_mem (hs : Headers) (k : HeaderType) (v : String)
    (h : (k, v) ∈ hs) :
    ∃ pre post, headerLines hs = pre ++ (k.display ++ ": " ++ v ++ CRLF).data ++ post := by
  induction hs with
  | nil => simp at h
  | cons kv hs ih =>
    rcases List.mem_cons.mp h with heq | hmem
    · refine ⟨[], headerLines hs, ?_⟩
      rw [← heq]
      rfl
    · obtain ⟨pre, post, hp⟩ := ih hmem
      exact ⟨(kv.1.display ++ ": " ++ kv.2 ++ CRLF).data ++ pre, post, by
        simp [headerLines, hp]⟩

/-- A header present in the map appears as a `<name>: <value>` line in the
bytes `write_to` puts on the wire. -/
theorem writeTo_mem (r : HttpResponse) (k : HeaderType) (v : String)
    (h : lookupA r.headers k = some v) :
    ∃ pre post, r.writeTo = pre ++ (k.display ++ ": " ++ v ++ CRLF).data ++ post := by
  obtain ⟨pre, post, hp⟩ := headerLines_mem r.headers k v (lookupA_mem _ _ _ h)
  refine ⟨(r.version ++ " " ++ r.status_code.display ++ CRLF).data ++ pre,
    post ++ CRLF.data ++ r.body, ?_⟩
  simp [HttpResponse.writeTo, hp]

/-- The empty file store. -/
def emptyStore : FStore :=
  { files := [], failWrites := [] }

/-- A stand-in gzip encoder for concrete tests: prepends a marker byte, so
compressed output is visibly different from its input. -/
def gzMark : List Char → List Char :=
  fun l => 'G' :: l

/-- Looking up `Content-Length` after inserting it under another key is
unchanged; specialization used when walking the handler's header inserts. -/
theorem lookupA_insert_CT_CE (x : Headers) (v : String) :
    lookupA (insertA x HeaderType.ContentType v) HeaderType.ContentEncoding =
      lookupA x HeaderType.ContentEncoding :=
  lookupA_insertA_ne x _ _ v (by decide)

/-- Inserting `Content-Length` does not change the `Content-Encoding` lookup. -/
theorem lookupA_insert_CL_CE (x : Headers) (v : String) :
    lookupA (insertA x HeaderType.ContentLength v) HeaderType.ContentEncoding =
      lookupA x HeaderType.ContentEncoding :=
  lookupA_insertA_ne x _ _ v (by decide)

/-- Claim C1: for every request handled to completion, the response carries a
`Content-Length` header whose value is exactly the byte length of the final
response body (the body after any gzip transform, since the header is set
from the body as it stands at write time), and that header line appears in
the bytes written to the wire. -/
theorem contentLength_equals_final_body_length (gz : List Char → List Char) (dir : String)
    (req : HttpRequest) (store : FStore) (res : HttpResponse) (st : FStore)
    (hok : handleRequest gz dir req store = .ok (res, st)) :
    lookupA res.headers HeaderType.ContentLength = some (Nat.repr res.body.length) ∧
    ∃ pre post, res.writeTo =
      pre ++ (HeaderType.ContentLength.display ++ ": " ++ Nat.repr res.body.length
        ++ CRLF).data ++ post := by
  have hcl : lookupA res.headers HeaderType.ContentLength = some (Nat.repr res.body.length) := by
    simp only [handleRequest] at hok
    repeat' split at hok
    all_goals injection hok
    all_goals
      rename_i hp
      injection hp with h1 h2
      subst h1
      simp [lookupA_insertA_self]
  exact ⟨hcl, writeTo_mem res _ _ hcl⟩

/-- The root request used to witness C1. -/
def rootReq : HttpRequest :=
  { method := .Get, path := "/", version := "HTTP/1.1", headers := [], body := [] }

/-- The response the model produces for `rootReq`. -/
def rootRes : HttpResponse :=
  { version := "HTTP/1.1", status_code := .Ok,
    headers := [(HeaderType.ContentLength, "0")], body := [] }

/-- Witness for C1 at the concrete root request. -/
theorem contentLength_equals_final_body_length_witness :
    handleRequest gzMark "d" rootReq emptyStore = .ok (rootRes, emptyStore) ∧
    (lookupA rootRes.headers HeaderType.ContentLength = some (Nat.repr rootRes.body.length) ∧
     ∃ pre post, rootRes.writeTo =
       pre ++ (HeaderType.ContentLength.display ++ ": " ++ Nat.repr rootRes.body.length
         ++ CRLF).data ++ post) :=
  ⟨rfl, contentLength_equals_final_body_length gzMark "d" rootReq emptyStore rootRes
    emptyStore rfl⟩

/-- The `/echo/abc` request advertising `Accept-Encoding: gzip, br`. -/
def echoGzipBrReq : HttpRequest :=
  { method := .Get, path := "/echo/abc", version := "HTTP/1.1",
    headers := [(HeaderType.AcceptEncoding, "gzip, br")], body := [] }

/-- The response the model produces for `echoGzipBrReq`: both encodings are
recorded, but the body is the uncompressed segment. -/
def echoGzipBrRes : HttpResponse :=
  { version := "HTTP/1.1", status_code := .Ok,
    headers := [(HeaderType.ContentEncoding, "gzip, br"),
                (HeaderType.ContentType, "text/plain"),
                (HeaderType.ContentLength, "3")],
    body := "abc".data }

/-- Claim C2 counterexample: on `/echo/abc` with `Accept-Encoding: gzip, br`,
gzip is among the recognized encodings, yet the response body is the echoed
segment unmodified, not its gzip compression — the source compresses only
when the accumulated `Content-Encoding` value equals the string
`"gzip"` exactly. -/
theorem echo_gzip_among_not_compressed :
    handleRequest gzMark "d" echoGzipBrReq emptyStore = .ok (echoGzipBrRes, emptyStore) ∧
    "gzip" ∈ recognizedEncodings "gzip, br" ∧
    echoGzipBrRes.body = "abc".data ∧
    echoGzipBrRes.body ≠ gzMark "abc".data :=
  ⟨rfl, by decide, rfl, by decide⟩

/-- Claim C2 (amended): on the echo route the body is gzip-compressed exactly
when the accumulated `Content-Encoding` header value is the string `"gzip"`
(that is, gzip is the sole recognized candidate); in every other case —
including gzip being one of several recognized encodings — the body is the
echoed segment unmodified, while the header still lists all recognized
encodings. -/
theorem echo_body_gzip_only_when_sole (gz : List Char → List Char) (dir : String)
    (req : HttpRequest) (store : FStore) (str : List Char) (res : HttpResponse) (st : FStore)
    (hpre : strStartsWith req.path "/echo" = true)
    (hseg : (splitChar '/' req.path.data)[2]? = some str)
    (hok : handleRequest gz dir req store = .ok (res, st)) :
    lookupA res.headers HeaderType.ContentEncoding =
      lookupA (negotiate req.headers []) HeaderType.ContentEncoding ∧
    res.body =
      (match lookupA (negotiate req.headers []) HeaderType.ContentEncoding with
       | some v => if v = "gzip" then gz str else str
       | none => str) := by
  simp only [handleRequest, hpre, if_true, hseg] at hok
  injection hok with hp
  injection hp with h1 h2
  subst h1
  constructor
  · simp [lookupA_insert_CL_CE, lookupA_insert_CT_CE]
  · simp only [lookupA_insert_CT_CE]

/-- The `/echo/abc` request advertising only `Accept-Encoding: gzip`. -/
def echoGzipReq : HttpRequest :=
  { method := .Get, path := "/echo/abc", version := "HTTP/1.1",
    headers := [(HeaderType.AcceptEncoding, "gzip")], body := [] }

/-- The response the model produces for `echoGzipReq`: the body is the
compressed segment. -/
def echoGzipRes : HttpResponse :=
  { version := "HTTP/1.1", status_code := .Ok,
    headers := [(HeaderType.ContentEncoding, "gzip"),
                (HeaderType.ContentType, "text/plain"),
                (HeaderType.ContentLength, "4")],
    body := gzMark "abc".data }

/-- Witness for the amended C2 at a concrete gzip-only request. -/
theorem echo_body_gzip_only_when_sole_witness :
    strStartsWith echoGzipReq.path "/echo" = true ∧
    (splitChar '/' echoGzipReq.path.data)[2]? = some "abc".data ∧
    handleRequest gzMark "d" echoGzipReq emptyStore = .ok (echoGzipRes, emptyStore) ∧
    (lookupA echoGzipRes.headers HeaderType.ContentEncoding =
       lookupA (negotiate echoGzipReq.headers []) HeaderType.ContentEncoding ∧
     echoGzipRes.body =
       (match lookupA (negotiate echoGzipReq.headers []) HeaderType.ContentEncoding with
        | some v => if v = "gzip" then gzMark "abc".data else "abc".data
        | none => "abc".data)) :=
  ⟨by decide, by decide, rfl,
   echo_body_gzip_only_when_sole gzMark "d" echoGzipReq emptyStore "abc".data echoGzipRes
     emptyStore (by decide) (by decide) rfl⟩

/-- Claim C3: with an `Accept-Encoding` header present, the negotiator splits
the value on `", "` (no delimiter: one candidate), records the recognized
candidates' canonical names in the `Content-Encoding` response header joined
by `", "` in the order encountered (unrecognized candidates dropped
silently), and when nothing is recognized sets no `Content-Encoding` header,
leaving the response headers — and on the echo route the body — untouched. -/
theorem negotiation_accumulates_in_order (req : HttpRequest) (v : String)
    (hae : lookupA req.headers HeaderType.AcceptEncoding = some v) :
    (lookupA (negotiate req.headers []) HeaderType.ContentEncoding =
       match recognizedEncodings v with
       | [] => none
       | n :: ns => some (ns.foldl (fun a b => a ++ ", " ++ b) n)) ∧
    (recognizedEncodings v = [] → negotiate req.headers [] = []) ∧
    (recognizedEncodings v = [] →
       ∀ (gz : List Char → List Char) (dir : String) (store : FStore) (str : List Char)
         (res : HttpResponse) (st : FStore),
         strStartsWith req.path "/echo" = true →
         (splitChar '/' req.path.data)[2]? = some str →
         handleRequest gz dir req store = .ok (res, st) →
         res.body = str ∧ lookupA res.headers HeaderType.ContentEncoding = none) := by
  have h2 : recognizedEncodings v = [] → negotiate req.headers [] = [] := by
    intro hz
    simp only [negotiate, hae]
    exact foldl_negStep_id _ _ hz
  refine ⟨?_, h2, ?_⟩
  · simp only [negotiate, hae, foldl_negStep_lookup]
    unfold recognizedEncodings
    cases hx : (encCandidates v).filterMap
        (fun c => (EncodingType.fromString c).map EncodingType.toWire) <;>
      simp [lookupA]
  · intro hz gz dir store str res st hpre hseg hok
    have hng : negotiate req.headers [] = [] := h2 hz
    simp only [handleRequest, hpre, if_true, hseg, hng] at hok
    injection hok with hp
    injection hp with hr hs
    subst hr
    constructor
    · simp [insertA, lookupA]
    · simp [insertA, lookupA]

/-- A request whose `Accept-Encoding` mixes recognized and unrecognized
candidates. -/
def aeListReq : HttpRequest :=
  { method := .Get, path := "/", version := "HTTP/1.1",
    headers := [(HeaderType.AcceptEncoding, "gzip, identity, br")], body := [] }

/-- Witness for C3 at a concrete mixed `Accept-Encoding` value: `identity`
is dropped and the header value is `"gzip, br"`. -/
theorem negotiation_accumulates_in_order_witness :
    lookupA aeListReq.headers HeaderType.AcceptEncoding = some "gzip, identity, br" ∧
    lookupA (negotiate aeListReq.headers []) HeaderType.ContentEncoding = some "gzip, br" ∧
    ((lookupA (negotiate aeListReq.headers []) HeaderType.ContentEncoding =
       match recognizedEncodings "gzip, identity, br" with
       | [] => none
       | n :: ns => some (ns.foldl (fun a b => a ++ ", " ++ b) n)) ∧
     (recognizedEncodings "gzip, identity, br" = [] → negotiate aeListReq.headers [] = []) ∧
     (recognizedEncodings "gzip, identity, br" = [] →
       ∀ (gz : List Char → List Char) (dir : String) (store : FStore) (str : List Char)
         (res : HttpResponse) (st : FStore),
         strStartsWith aeListReq.path "/echo" = true →
         (splitChar '/' aeListReq.path.data)[2]? = some str →
         handleRequest gz dir aeListReq store = .ok (res, st) →
         res.body = str ∧ lookupA res.headers HeaderType.ContentEncoding = none)) :=
  ⟨rfl, by decide, negotiation_accumulates_in_order aeListReq "gzip, identity, br" rfl⟩

/-- Splitting a `/files/<rest>` path on `/` yields the two fixed leading
pieces and then the split of the rest. -/
theorem splitChar_files_path (t : List Char) :
    splitChar '/' ('/' :: 'f' :: 'i' :: 'l' :: 'e' :: 's' :: '/' :: t) =
      [] :: ('f' :: 'i' :: 'l' :: 'e' :: 's' :: []) :: splitChar '/' t := by
  simp [splitChar]

/-- Piece 2 of a split `/files/<rest>` path is the first piece of the rest. -/
theorem getElem2_splitChar (t : List Char) :
    ([] :: ('f' :: 'i' :: 'l' :: 'e' :: 's' :: []) :: splitChar '/' t)[2]? =
      some ((splitChar '/' t).headD []) := by
  cases h : splitChar '/' t with
  | nil => exact absurd h (splitChar_ne_nil '/' t)
  | cons a l => simp [h]

/-- A `/files/...` path never matches the `/echo` prefix. -/
theorem files_path_not_echo (name : String) :
    strStartsWith ("/files/" ++ name) "/echo" = false := by
  unfold strStartsWith
  rw [String.data_append]
  simp [isPrefixB]

/-- A `/files/...` path always matches the `/files` prefix. -/
theorem files_path_starts_files (name : String) :
    strStartsWith ("/files/" ++ name) "/files" = true := by
  unfold strStartsWith
  rw [String.data_append]
  show isPrefixB "/files".data ("/files".data ++ ('/' :: name.data)) = true
  exact isPrefixB_append _ _

/-- The piece of a `/files/<name>` path the router uses as the file name. -/
theorem files_path_piece2 (name : String) :
    (splitChar '/' ("/files/" ++ name).data)[2]? =
      some ((splitChar '/' name.data).headD []) := by
  rw [show ("/files/" ++ name).data = '/' :: 'f' :: 'i' :: 'l' :: 'e' :: 's' :: '/' :: name.data
    from by simp [String.data_append], splitChar_files_path]
  exact getElem2_splitChar name.data

/-- Claim C4: for every file name and byte sequence, `POST /files/<name>`
returns 201 with an empty body and, on the store it produces,
`GET /files/<name>` returns 200 with exactly the posted bytes.  The store is
the abstract byte-store collaborator; the write is assumed not to fail. -/
theorem files_post_get_roundtrip (gz1 gz2 : List Char → List Char) (dir name : String)
    (bytes bget : List Char) (store : FStore) (v1 v2 : String) (hd1 hd2 : Headers)
    (hw : lookupA store.failWrites
        (dir.data ++ '/' :: (splitChar '/' name.data).headD []) = none) :
    ∃ res1 store1 res2 store2,
      handleRequest gz1 dir
        { method := .Post, path := "/files/" ++ name, version := v1,
          headers := hd1, body := bytes } store = .ok (res1, store1) ∧
      res1.status_code = StatusCode.Created ∧ res1.body = [] ∧
      handleRequest gz2 dir
        { method := .Get, path := "/files/" ++ name, version := v2,
          headers := hd2, body := bget } store1 = .ok (res2, store2) ∧
      res2.status_code = StatusCode.Ok ∧ res2.body = bytes := by
  have hpe := files_path_not_echo name
  have hpf := files_path_starts_files name
  have hsplit := files_path_piece2 name
  refine ⟨{ version := v1, status_code := StatusCode.Created,
            headers := insertA (negotiate hd1 []) HeaderType.ContentLength (Nat.repr 0),
            body := [] },
          writeStore store (dir.data ++ '/' :: (splitChar '/' name.data).headD []) bytes,
          { version := v2, status_code := StatusCode.Ok,
            headers := insertA
              (insertA (negotiate hd2 []) HeaderType.ContentType "application/octet-stream")
              HeaderType.ContentLength (Nat.repr bytes.length),
            body := bytes },
          writeStore store (dir.data ++ '/' :: (splitChar '/' name.data).headD []) bytes,
          ?e1, rfl, rfl, ?e2, rfl, rfl⟩
  case e1 =>
    simp only [handleRequest, hpe, hpf, hsplit, hw, Bool.false_eq_true, if_false, if_true]
    try rfl
  case e2 =>
    simp only [handleRequest, hpe, hpf, hsplit, Bool.false_eq_true, if_false, if_true,
      readStore, writeStore, lookupA_insertA_self]
    try rfl

/-- Witness for C4 at a concrete name and byte sequence. -/
theorem files_post_get_roundtrip_witness :
    lookupA emptyStore.failWrites
      ("d".data ++ '/' :: (splitChar '/' "f".data).headD []) = none ∧
    (∃ res1 store1 res2 store2,
      handleRequest gzMark "d"
        { method := .Post, path := "/files/" ++ "f", version := "HTTP/1.1",
          headers := [], body := "xy".data } emptyStore = .ok (res1, store1) ∧
      res1.status_code = StatusCode.Created ∧ res1.body = [] ∧
      handleRequest gzMark "d"
        { method := .Get, path := "/files/" ++ "f", version := "HTTP/1.1",
          headers := [], body := [] } store1 = .ok (res2, store2) ∧
      res2.status_code = StatusCode.Ok ∧ res2.body = "xy".data) :=
  ⟨rfl, files_post_get_roundtrip gzMark gzMark "d" "f" "xy".data [] emptyStore
    "HTTP/1.1" "HTTP/1.1" [] [] rfl⟩

/-- Claim C5 counterexample: the request line `FOO bar` has two
whitespace-separated tokens, yet parsing fails with `InvalidMethod` (the
`unwrap` on the method parse at line 395 fires before `parts[1]` is ever
indexed), not with `MalformedRequestLine`. -/
theorem requestline_short_counterexample :
    (splitWS (readLine "FOO bar\r\n".data).1).length < 3 ∧
    HttpRequest.from "FOO bar\r\n".data = Except.error HErr.invalidMethod ∧
    HErr.invalidMethod ≠ HErr.malformedRequestLine :=
  ⟨by decide, rfl, by decide⟩

/-- Claim C5 (amended): the parser fails whenever the request line has fewer
than three whitespace-separated tokens; the failure is `MalformedRequestLine`
when there is no first token or the first token is a valid method, and
`InvalidMethod` when the first token is present but not a method name. -/
theorem requestline_fails_when_short (stream : List Char)
    (h : (splitWS (readLine stream).1).length < 3) :
    HttpRequest.from stream = Except.error
      (match (splitWS (readLine stream).1)[0]? with
       | none => HErr.malformedRequestLine
       | some t =>
         if (Method.fromString (String.mk t)).isSome then HErr.malformedRequestLine
         else HErr.invalidMethod) := by
  rcases hl : splitWS (readLine stream).1 with _ | ⟨a, _ | ⟨b, _ | ⟨c, tl⟩⟩⟩
  · simp [HttpRequest.from, hl]
  · cases hm : Method.fromString (String.mk a) <;>
      simp [HttpRequest.from, hl, hm]
  · cases hm : Method.fromString (String.mk a) <;>
      simp [HttpRequest.from, hl, hm]
  · rw [hl] at h
    simp at h
    omega

/-- Witness for the amended C5: `GET /` has two tokens and a valid method, so
parsing fails with `MalformedRequestLine`. -/
theorem requestline_fails_when_short_witness :
    (splitWS (readLine "GET /\r\n".data).1).length < 3 ∧
    HttpRequest.from "GET /\r\n".data = Except.error HErr.malformedRequestLine :=
  ⟨by decide, requestline_fails_when_short "GET /\r\n".data (by decide)⟩

/-- Claim C6: with a `Content-Length` header, its value is parsed as a
non-negative integer — a value that does not parse fails with
`InvalidContentLength` — and exactly that many bytes are taken from the
stream as the body (a stream that ends first is a transport failure); with
no such header the body is empty and the stream untouched. -/
theorem body_reads_exactly_content_length (headers : Headers) (s : List Char) :
    (lookupA headers HeaderType.ContentLength = none → readBody headers s = .ok ([], s)) ∧
    (∀ v, lookupA headers HeaderType.ContentLength = some v →
      (parseUsize v = none → readBody headers s = .error HErr.invalidContentLength) ∧
      (∀ n, parseUsize v = some n →
        (n ≤ s.length →
          readBody headers s = .ok (s.take n, s.drop n) ∧ (s.take n).length = n) ∧
        (s.length < n → readBody headers s = .error HErr.transportError))) := by
  refine ⟨?_, ?_⟩
  · intro h
    simp [readBody, h]
  · intro v hv
    refine ⟨?_, ?_⟩
    · intro hp
      simp [readBody, hv, hp]
    · intro n hp
      refine ⟨?_, ?_⟩
      · intro hle
        refine ⟨by simp [readBody, hv, hp, hle], ?_⟩
        simp [List.length_take]
        omega
      · intro hgt
        have hn : ¬ n ≤ s.length := by omega
        simp [readBody, hv, hp, hn]

/-- Witness for C6: a `Content-Length: 3` header takes exactly three bytes of
a six-byte stream. -/
theorem body_reads_exactly_content_length_witness :
    lookupA [(HeaderType.ContentLength, "3")] HeaderType.ContentLength = some "3" ∧
    parseUsize "3" = some 3 ∧
    3 ≤ "abcdef".data.length ∧
    readBody [(HeaderType.ContentLength, "3")] "abcdef".data =
      .ok ("abc".data, "def".data) ∧
    ("abcdef".data.take 3).length = 3 := by
  refine ⟨rfl, by decide, by decide, ?_, by decide⟩
  have h := (((body_reads_exactly_content_length [(HeaderType.ContentLength, "3")]
    "abcdef".data).2 "3" rfl).2 3 (by decide)).1 (by decide)
  exact h.1

/-- Claim C7: a header line is split on its first `:`; the key is trimmed and
matched (unknown names become `Custom`), the value is trimmed; a line with no
`:` is skipped by the header loop without aborting the parse, so the headers
collected are exactly those of the remaining lines. -/
theorem header_lines_lenient :
    (∀ k v : List Char, ':' ∉ k →
       HeaderType.parse (k ++ ':' :: v) =
         some (HeaderType.fromString (String.mk (trimChars k)),
               String.mk (trimChars v))) ∧
    (∀ l : List Char, ':' ∉ l → HeaderType.parse l = none) ∧
    (∀ s : String, s ∉ knownHeaderNames → HeaderType.fromString s = HeaderType.Custom s) ∧
    (∀ (l rest : List Char) (acc : Headers), ':' ∉ l → '\n' ∉ l → trimChars l ≠ [] →
       parseHeaders (l ++ '\n' :: rest) acc = parseHeaders rest acc) := by
  refine ⟨?_, ?_, ?_, ?_⟩
  · intro k v hk
    unfold HeaderType.parse
    rw [splitFirst_first ':' k v hk]
  · intro l hl
    unfold HeaderType.parse
    rw [splitFirst_not_mem ':' l hl]
  · intro s hs
    unfold HeaderType.fromString
    split
    all_goals
      first
        | rfl
        | exact absurd (by decide) hs
  · intro l rest acc hc hn ht
    have hline := readLine_line l rest hn
    have htr : trimChars (l ++ ['\n']) ≠ [] := by
      rw [trimChars_append_newline]
      exact ht
    have hcrlf : l ++ ['\n'] ≠ CRLF.data := by
      intro he
      have : l = ['\r'] := by
        have := congrArg (fun x => x.dropLast) he
        simpa using this
      rw [this] at ht
      exact ht (by decide)
    have hparse : HeaderType.parse (l ++ ['\n']) = none := by
      unfold HeaderType.parse
      rw [splitFirst_not_mem ':' (l ++ ['\n']) (by
        intro hm
        rcases List.mem_append.mp hm with h1 | h1
        · exact hc h1
        · simp at h1)]
    conv_lhs => rw [parseHeaders]
    simp only [hline, dif_neg htr, if_neg hcrlf, hparse]

/-- Witness for C7: a padded `Host` line parses with both sides trimmed, a
colonless line yields nothing, an unknown name maps to `Custom`, and a
malformed line in the header block is skipped without affecting the rest. -/
theorem header_lines_lenient_witness :
    (':' ∉ " Host ".data) ∧
    HeaderType.parse (" Host ".data ++ ':' :: " ex.com \r".data) =
      some (HeaderType.Host, "ex.com") ∧
    HeaderType.parse "garbage line\r".data = none ∧
    HeaderType.fromString "X-Trace-Id" = HeaderType.Custom "X-Trace-Id" ∧
    parseHeaders ("garbage\r".data ++ '\n' :: "\r\n".data) [] =
      parseHeaders "\r\n".data [] := by
  refine ⟨by decide, ?_, ?_, ?_, ?_⟩
  · exact header_lines_lenient.1 " Host ".data " ex.com \r".data (by decide)
  · exact header_lines_lenient.2.1 "garbage line\r".data (by decide)
  · exact header_lines_lenient.2.2.1 "X-Trace-Id" (by decide)
  · exact header_lines_lenient.2.2.2 "garbage\r".data "\r\n".data [] (by decide)
      (by decide) (by decide)

/-- Claim C8: a request whose path is exactly `/user-agent` with a
`User-Agent` header gets a 200 response whose body is that header's value;
without the header the handler fails with `MissingHeader`, fatal to this
connection only. -/
theorem user_agent_reflected (gz : List Char → List Char) (dir : String)
    (req : HttpRequest) (store : FStore) (hpath : req.path = "/user-agent") :
    (∀ ua, lookupA req.headers HeaderType.UserAgent = some ua →
       ∃ res, handleRequest gz dir req store = .ok (res, store) ∧
         res.status_code = StatusCode.Ok ∧ res.body = ua.data) ∧
    (lookupA req.headers HeaderType.UserAgent = none →
       handleRequest gz dir req store = .error HErr.missingHeader) := by
  have he : strStartsWith req.path "/echo" = false := by
    rw [hpath]
    decide
  have hf : strStartsWith req.path "/files" = false := by
    rw [hpath]
    decide
  constructor
  · intro ua hua
    refine ⟨{ version := req.version, status_code := StatusCode.Ok,
              headers := insertA
                (insertA (negotiate req.headers []) HeaderType.ContentType "text/plain")
                HeaderType.ContentLength (Nat.repr ua.data.length),
              body := ua.data }, ?_, rfl, rfl⟩
    simp only [handleRequest, he, hf, Bool.false_eq_true, if_false]
    rw [if_pos hpath, hua]
  · intro hua
    simp only [handleRequest, he, hf, Bool.false_eq_true, if_false]
    rw [if_pos hpath, hua]

/-- A `/user-agent` request with a `User-Agent` header. -/
def uaReq : HttpRequest :=
  { method := .Get, path := "/user-agent", version := "HTTP/1.1",
    headers := [(HeaderType.UserAgent, "test-agent/1.0")], body := [] }

/-- A `/user-agent` request with no `User-Agent` header. -/
def noUaReq : HttpRequest :=
  { method := .Get, path := "/user-agent", version := "HTTP/1.1",
    headers := [(HeaderType.Host, "h")], body := [] }

/-- Witness for C8 on both branches: a concrete `User-Agent` is reflected,
and its absence is a `MissingHeader` failure. -/
theorem user_agent_reflected_witness :
    uaReq.path = "/user-agent" ∧
    lookupA uaReq.headers HeaderType.UserAgent = some "test-agent/1.0" ∧
    (∃ res, handleRequest gzMark "d" uaReq emptyStore = .ok (res, emptyStore) ∧
       res.status_code = StatusCode.Ok ∧ res.body = "test-agent/1.0".data) ∧
    lookupA noUaReq.headers HeaderType.UserAgent = none ∧
    handleRequest gzMark "d" noUaReq emptyStore = .error HErr.missingHeader :=
  ⟨rfl, rfl,
   (user_agent_reflected gzMark "d" uaReq emptyStore rfl).1 "test-agent/1.0" rfl,
   by decide,
   (user_agent_reflected gzMark "d" noUaReq emptyStore rfl).2 (by decide)⟩

/-- A path with the `/files` prefix can never also have the `/echo` prefix
(the second characters differ). -/
theorem files_prefix_not_echo (p : String) (h : strStartsWith p "/files" = true) :
    strStartsWith p "/echo" = false := by
  unfold strStartsWith at h ⊢
  rcases hp : p.data with _ | ⟨a, _ | ⟨b, t⟩⟩ <;> rw [hp] at h <;> simp_all [isPrefixB]
  intro _ hb
  rw [← hb] at h
  exact absurd h.2.1 (by decide)

/-- Claim C9 counterexample: the path `/echo` matches the `/echo` prefix, but
the handler fails with the `parts[2]` indexing panic instead of producing a
response with an echoed value — there is no second `/`-separated component. -/
theorem prefix_route_counterexample :
    strStartsWith "/echo" "/echo" = true ∧
    handleRequest gzMark "d"
      { method := .Get, path := "/echo", version := "HTTP/1.1",
        headers := [], body := [] } emptyStore = Except.error HErr.indexOutOfBounds :=
  ⟨by decide, rfl⟩

/-- Claim C9 (amended): routing is by string prefix — any path starting with
`/echo` (resp. `/files`) is dispatched to the echo (files) route; when the
split path has a piece at index 2 that piece is the echoed value (resp. the
file name), and when it does not (fewer than two `/` in the path) the handler
fails with the indexing panic instead of returning a response. -/
theorem prefix_routes_use_second_component (gz : List Char → List Char) (dir : String)
    (req : HttpRequest) (store : FStore) :
    (strStartsWith req.path "/echo" = true →
       ∀ seg, (splitChar '/' req.path.data)[2]? = some seg →
         ∃ res, handleRequest gz dir req store = .ok (res, store) ∧
           lookupA res.headers HeaderType.ContentType = some "text/plain" ∧
           (res.body = seg ∨ res.body = gz seg)) ∧
    (strStartsWith req.path "/files" = true →
       ∀ seg, (splitChar '/' req.path.data)[2]? = some seg →
         req.method = Method.Post →
         lookupA store.failWrites (dir.data ++ '/' :: seg) = none →
         ∃ res, handleRequest gz dir req store =
             .ok (res, writeStore store (dir.data ++ '/' :: seg) req.body) ∧
           res.status_code = StatusCode.Created) ∧
    (strStartsWith req.path "/echo" = true →
       (splitChar '/' req.path.data)[2]? = none →
       handleRequest gz dir req store = .error HErr.indexOutOfBounds) ∧
    (strStartsWith req.path "/files" = true →
       (splitChar '/' req.path.data)[2]? = none →
       handleRequest gz dir req store = .error HErr.indexOutOfBounds) := by
  refine ⟨?_, ?_, ?_, ?_⟩
  · intro hpre seg hseg
    refine ⟨{ version := req.version, status_code := StatusCode.Ok,
              headers := insertA
                (insertA (negotiate req.headers []) HeaderType.ContentType "text/plain")
                HeaderType.ContentLength (Nat.repr (match lookupA
                    (insertA (negotiate req.headers []) HeaderType.ContentType "text/plain")
                    HeaderType.ContentEncoding with
                  | some v => if v = "gzip" then gz seg else seg
                  | none => seg).length),
              body := match lookupA
                  (insertA (negotiate req.headers []) HeaderType.ContentType "text/plain")
                  HeaderType.ContentEncoding with
                | some v => if v = "gzip" then gz seg else seg
                | none => seg }, ?_, ?_, ?_⟩
    · simp only [handleRequest, hpre, if_true, hseg]
    · rw [lookupA_insertA_ne _ _ _ _ (by decide), lookupA_insertA_self]
    · cases hce : lookupA
        (insertA (negotiate req.headers []) HeaderType.ContentType "text/plain")
        HeaderType.ContentEncoding with
      | none => simp [hce]
      | some v =>
        by_cases hg : v = "gzip" <;> simp [hce, hg]
  · intro hpre seg hseg hmeth hw
    have he := files_prefix_not_echo req.path hpre
    refine ⟨{ version := req.version, status_code := StatusCode.Created,
              headers := insertA (negotiate req.headers []) HeaderType.ContentLength
                (Nat.repr 0),
              body := [] }, ?_, rfl⟩
    simp only [handleRequest, he, hpre, Bool.false_eq_true, if_false, if_true, hseg,
      hmeth, hw]
    try rfl
  · intro hpre hseg
    simp only [handleRequest, hpre, if_true, hseg]
  · intro hpre hseg
    have he := files_prefix_not_echo req.path hpre
    simp only [handleRequest, he, hpre, Bool.false_eq_true, if_false, if_true, hseg]

/-- A request whose path merely starts with the string `/echo`. -/
def echoesReq : HttpRequest :=
  { method := .Get, path := "/echoes/x", version := "HTTP/1.1", headers := [], body := [] }

/-- Witness for the amended C9: `/echoes/x` is served by the echo route with
`x` as the echoed value, and `/files` (no second component) fails. -/
theorem prefix_routes_use_second_component_witness :
    strStartsWith echoesReq.path "/echo" = true ∧
    (splitChar '/' echoesReq.path.data)[2]? = some "x".data ∧
    (∃ res, handleRequest gzMark "d" echoesReq emptyStore = .ok (res, emptyStore) ∧
       lookupA res.headers HeaderType.ContentType = some "text/plain" ∧
       (res.body = "x".data ∨ res.body = gzMark "x".data)) ∧
    strStartsWith "/files" "/files" = true ∧
    (splitChar '/' "/files".data)[2]? = none ∧
    handleRequest gzMark "d"
      { method := .Get, path := "/files", version := "HTTP/1.1",
        headers := [], body := [] } emptyStore = .error HErr.indexOutOfBounds := by
  refine ⟨by decide, by decide, ?_, by decide, by decide, ?_⟩
  · exact (prefix_routes_use_second_component gzMark "d" echoesReq emptyStore).1
      (by decide) "x".data (by decide)
  · exact (prefix_routes_use_second_component gzMark "d"
      { method := .Get, path := "/files", version := "HTTP/1.1",
        headers := [], body := [] } emptyStore).2.2.2 (by decide) (by decide)

/-- Claim C10: negotiation runs before dispatch — whenever the request
advertises at least one recognized encoding and a response is produced, that
response carries the accumulated `Content-Encoding` header, on every route;
and off the `/echo` prefix the result does not depend on the compressor at
all, so no other route compresses the body. -/
theorem negotiation_precedes_dispatch (gz : List Char → List Char) (dir : String)
    (req : HttpRequest) (store : FStore) (v : String) (res : HttpResponse) (st : FStore)
    (hae : lookupA req.headers HeaderType.AcceptEncoding = some v)
    (hrec : recognizedEncodings v ≠ [])
    (hok : handleRequest gz dir req store = .ok (res, st)) :
    (lookupA res.headers HeaderType.ContentEncoding =
       lookupA (negotiate req.headers []) HeaderType.ContentEncoding ∧
     lookupA (negotiate req.headers []) HeaderType.ContentEncoding ≠ none) ∧
    (strStartsWith req.path "/echo" = false →
       ∀ gz', handleRequest gz' dir req store = .ok (res, st)) := by
  refine ⟨⟨?_, ?_⟩, ?_⟩
  · simp only [handleRequest] at hok
    repeat' split at hok
    all_goals injection hok
    all_goals
      rename_i hp
      injection hp with h1 h2
      subst h1
      simp [lookupA_insert_CL_CE, lookupA_insert_CT_CE]
  · unfold recognizedEncodings at hrec
    simp only [negotiate, hae, foldl_negStep_lookup]
    cases hx : (encCandidates v).filterMap
        (fun c => (EncodingType.fromString c).map EncodingType.toWire) with
    | nil => exact absurd hx hrec
    | cons n ns => simp [lookupA]
  · intro hne gz'
    simp only [handleRequest, hne, Bool.false_eq_true, if_false] at hok ⊢
    exact hok

/-- A `/user-agent` request that also advertises `Accept-Encoding: br`. -/
def uaAeReq : HttpRequest :=
  { method := .Get, path := "/user-agent", version := "HTTP/1.1",
    headers := [(HeaderType.UserAgent, "ua"), (HeaderType.AcceptEncoding, "br")],
    body := [] }

/-- The response the model produces for `uaAeReq`: the `Content-Encoding`
header is present on this non-echo route and the body is uncompressed. -/
def uaAeRes : HttpResponse :=
  { version := "HTTP/1.1", status_code := .Ok,
    headers := [(HeaderType.ContentEncoding, "br"),
                (HeaderType.ContentType, "text/plain"),
                (HeaderType.ContentLength, "2")],
    body := "ua".data }

/-- Witness for C10 at a concrete non-echo request. -/
theorem negotiation_precedes_dispatch_witness :
    lookupA uaAeReq.headers HeaderType.AcceptEncoding = some "br" ∧
    recognizedEncodings "br" ≠ [] ∧
    handleRequest gzMark "d" uaAeReq emptyStore = .ok (uaAeRes, emptyStore) ∧
    ((lookupA uaAeRes.headers HeaderType.ContentEncoding =
        lookupA (negotiate uaAeReq.headers []) HeaderType.ContentEncoding ∧
      lookupA (negotiate uaAeReq.headers []) HeaderType.ContentEncoding ≠ none) ∧
     (strStartsWith uaAeReq.path "/echo" = false →
        ∀ gz', handleRequest gz' "d" uaAeReq emptyStore = .ok (uaAeRes, emptyStore))) :=
  ⟨rfl, by decide, rfl,
   negotiation_precedes_dispatch gzMark "d" uaAeReq emptyStore "br" uaAeRes emptyStore
     rfl (by decide) rfl⟩
